import Mathlib

/-!
Verification of the SportsLLM reverse-proxy shim
(`custom_llm_server_with_tools.py`, `custom_llm_server.py`, `nba_tools.py`).

The chat endpoint's generator is embedded as a pure function over an explicit
environment: the upstream inference backend is a source of byte chunks, each
chunk paired with the outcome `json.loads` has on it (a parsed object or a
decode failure), upstream transport failures and the outcome of the tool
executor are supplied by the environment, and the observable behaviour is an
ordered trace of events (upstream calls issued, capability invocations,
byte strings yielded to the client).
-/

namespace SportsLLM

/-- A chat message dict `{"role": ..., "content": ...}`. -/
structure Msg where
  role : String
  content : String
deriving DecidableEq, Repr

/-- The system prompt injected by `custom_llm_server_with_tools.py` (lines 136-139). -/
def systemPromptWithTools : String :=
  "You are an assistant with access to tools, if you do not have a tool to deal with the user's request but you think you can answer do it so, if not explain your capabilities"

/-- `any(msg["role"] == "system" for msg in data["messages"])` (line 135). -/
def hasSystem (msgs : List Msg) : Bool :=
  msgs.any (fun m => m.role == "system")

/-- Lines 134-139: insert the system message at index 0 when no message has
role `system`; otherwise leave the list unchanged. -/
def injectSystem (msgs : List Msg) : List Msg :=
  if hasSystem msgs then msgs
  else { role := "system", content := systemPromptWithTools } :: msgs

/-- One tool-call directive `{"function": {"name": ..., "arguments": ...}}`. -/
structure ToolCall where
  name : String
  args : List (String × String)
deriving DecidableEq, Repr

/-- The result of a successful `json.loads(chunk)` as far as the server
inspects it: `toolCalls = some tcs` models a parsed object with
`'message' in chunk_data and 'tool_calls' in chunk_data['message']` holding,
the field value being `tcs` (possibly the empty list); `toolCalls = none`
models a parsed object for which that test is false. -/
structure ParsedChunk where
  toolCalls : Option (List ToolCall)
deriving DecidableEq, Repr

/-- One transport chunk: its raw bytes and the outcome of `json.loads` on it
(`none` models a `json.JSONDecodeError`, e.g. an incomplete fragment). -/
structure Chunk where
  bytes : String
  parsed : Option ParsedChunk
deriving DecidableEq, Repr

/-- The `async for chunk in response.aiter_bytes()` loop of a tool-seeking
pass (lines 199-218). Returns the chunks relayed immediately (streaming
mode), the accumulated response (non-streaming mode), and the detected
`tool_calls` value, if any. Each chunk is parsed on its own; a chunk whose
parse fails is relayed/accumulated exactly like a parsed chunk with no
tool-call field; on detection the remaining chunks are abandoned (`break`). -/
def processChunks (streaming : Bool) : List Chunk → List String × String × Option (List ToolCall)
  | [] => ([], "", none)
  | c :: rest =>
    match c.parsed with
    | some pc =>
      match pc.toolCalls with
      | some tcs => ([], "", some tcs)
      | none =>
        let r := processChunks streaming rest
        if streaming then (c.bytes :: r.1, r.2.1, r.2.2)
        else (r.1, c.bytes ++ r.2.1, r.2.2)
    | none =>
      let r := processChunks streaming rest
      if streaming then (c.bytes :: r.1, r.2.1, r.2.2)
      else (r.1, c.bytes ++ r.2.1, r.2.2)

/-- Environment behaviour of one upstream call in the tool-seeking loop:
the chunks the backend delivers, whether the pass raises an exception after
those chunks (`some e` models a transport/backend error whose `str` is `e`;
chunks delivered before a mid-stream error are simply the chunks listed),
and the outcome of `use_tools` if a tool call is detected and executed
(`Except.error e` models `use_tools` raising with `str` equal to `e`). -/
structure AttemptEnv where
  chunks : List Chunk
  raises : Option String
  invokeResult : Except String String
deriving Repr

/-- Environment behaviour of a plain relayed pass (the bypass path and the
second, post-tool-call call): chunks delivered, then optionally an exception. -/
structure PassEnv where
  chunks : List Chunk
  raises : Option String
deriving Repr

/-- Observable events of one request, in order. -/
inductive Event where
  | upstream (model : String) (hasTools : Bool) (stream : Bool) (msgs : List Msg)
  | invoke (tc : Option ToolCall)
  | yieldB (bytes : String)
deriving DecidableEq, Repr

/-- Modelled from the spec: `ollama_tools.use_tools` is imported by the server
but its source is not in the repository. Per the spec (section 3: a
ToolCallDirective is extracted from a model response chunk, "zero or one may
appear per model turn (only the first is honored; registry lookup is by exact
name match)", and section 4.5: on SUCCEEDED the registry `invoke` is called),
it executes the single honored directive against the Capability Registry; we
record that as one `Event.invoke` carrying the first directive, and its
result or exception is supplied by `AttemptEnv.invokeResult`. -/
def useToolsEvents (tcs : List ToolCall) : List Event :=
  [Event.invoke tcs.head?]

/-- `max_retries = 10` (line 180). -/
def maxRetries : Nat := 10

/-- `json.dumps({"error": f"Failed to execute tool call after {max_retries} attempts: {str(e)}"})`
(line 245). -/
def toolErrorJson (e : String) : String :=
  "\x7b\"error\": \"Failed to execute tool call after 10 attempts: " ++ e ++ "\"\x7d"

/-- `json.dumps({"error": str(e)})` of the outer exception handler (line 279). -/
def outerErrorJson (e : String) : String :=
  "\x7b\"error\": \"" ++ e ++ "\"\x7d"

/-- Terminal states of the retry loop. `envExhausted r` means the supplied
environment list ran out while the `while` loop's condition still held, i.e.
the real loop would issue yet another upstream call with retry counter `r`;
`budgetSpent` is the (unreachable from `retry = 0`) fall-through of the
`while` condition. -/
inductive LoopResult where
  | success (toolResult : String)
  | errored
  | envExhausted (retry : Nat)
  | budgetSpent
deriving DecidableEq, Repr

/-- The `while retry_count < max_retries and not tool_call_success` loop
(lines 184-247), one environment entry per upstream call. Returns the event
trace of the loop together with its terminal state. Faithful points:
a completed pass with no detected tool call (and no error) leaves both
`tool_call_success` and `retry_count` unchanged, so the loop body runs again;
a detected but empty `tool_calls` list fails the `if tool_calls:` truthiness
test, so no invocation happens and the loop likewise runs again; an exception
anywhere in the attempt (transport or `use_tools`) increments `retry_count`,
and on the `maxRetries`-th failure the single error object is yielded and the
generator returns. In non-streaming mode the accumulated response is yielded
inside the `async with` block, hence not when the pass raises. -/
def runLoop (streaming : Bool) (msgs : List Msg) (model : String) :
    List AttemptEnv → Nat → List Event × LoopResult
  | attempts, retry =>
    if retry < maxRetries then
      match attempts with
      | [] => ([], LoopResult.envExhausted retry)
      | env :: rest =>
        let pass := processChunks streaming env.chunks
        let callEv := Event.upstream model true streaming msgs
        let relayEvs := pass.1.map Event.yieldB
        match pass.2.2 with
        | some tcs =>
          let afterStream := relayEvs ++ (if streaming then [] else [Event.yieldB pass.2.1])
          if tcs.isEmpty then
            let r := runLoop streaming msgs model rest retry
            (callEv :: afterStream ++ r.1, r.2)
          else
            match env.invokeResult with
            | Except.ok res =>
              (callEv :: afterStream ++ useToolsEvents tcs, LoopResult.success res)
            | Except.error e =>
              if retry + 1 < maxRetries then
                let r := runLoop streaming msgs model rest (retry + 1)
                (callEv :: afterStream ++ useToolsEvents tcs ++ r.1, r.2)
              else
                (callEv :: afterStream ++ useToolsEvents tcs ++ [Event.yieldB (toolErrorJson e)],
                 LoopResult.errored)
        | none =>
          match env.raises with
          | none =>
            let afterStream := relayEvs ++ (if streaming then [] else [Event.yieldB pass.2.1])
            let r := runLoop streaming msgs model rest retry
            (callEv :: afterStream ++ r.1, r.2)
          | some e =>
            if retry + 1 < maxRetries then
              let r := runLoop streaming msgs model rest (retry + 1)
              (callEv :: relayEvs ++ r.1, r.2)
            else
              (callEv :: relayEvs ++ [Event.yieldB (toolErrorJson e)], LoopResult.errored)
    else ([], LoopResult.budgetSpent)

/-- `String` concatenation of a chunk list, the value of `accumulated_response`. -/
def concatBytes : List Chunk → String
  | [] => ""
  | c :: rest => c.bytes ++ concatBytes rest

/-- The bypass (no function calling) branch body, lines 163-175: every chunk
is yielded as it arrives, regardless of `is_streaming`; an exception reaches
the outer handler, which yields a single error object. -/
def relayBypass (p : PassEnv) : List Event :=
  p.chunks.map (fun c => Event.yieldB c.bytes) ++
    match p.raises with
    | none => []
    | some e => [Event.yieldB (outerErrorJson e)]

/-- The second, post-tool-call upstream call's relay, lines 264-274: streamed
chunks are yielded as they arrive; otherwise they are accumulated and yielded
once after the stream ends (inside the `async with`, hence skipped when the
pass raises); an exception reaches the outer handler. -/
def relayPass2 (streaming : Bool) (p : PassEnv) : List Event :=
  match p.raises with
  | none =>
    if streaming then p.chunks.map (fun c => Event.yieldB c.bytes)
    else [Event.yieldB (concatBytes p.chunks)]
  | some e =>
    (if streaming then p.chunks.map (fun c => Event.yieldB c.bytes) else []) ++
      [Event.yieldB (outerErrorJson e)]

/-- The parsed body of `POST /api/chat`: `messages`, optional `model`,
optional `stream` (default `True`), and `metadata.task` when both the
`metadata` key and its `task` key are present. -/
structure ChatRequest where
  messages : Option (List Msg)
  model : Option String
  stream : Option Bool
  metadataTask : Option String
deriving Repr

/-- Lines 145-161: `function_call` starts `True` and is set to `False` for
each of the three housekeeping task names. -/
def functionCallFlag (task : Option String) : Bool :=
  match task with
  | none => true
  | some t =>
    if t == "tags_generation" then false
    else if t == "title_generation" then false
    else if t == "autocomplete_generation" then false
    else true

/-- `data.get('model', 'llama3.2:1b')` (lines 190, 259). -/
def loopModel (req : ChatRequest) : String :=
  req.model.getD "llama3.2:1b"

/-- The message list used by the function-calling path: the in-place system
injection happens only when the `messages` key exists, and line 178 falls back
to `[]` otherwise. -/
def processedMessages (req : ChatRequest) : List Msg :=
  match req.messages with
  | some ms => injectSystem ms
  | none => []

/-- The whole `generate_response` generator of the chat endpoint of
`custom_llm_server_with_tools.py` (lines 131-279), as an event trace.
`bypassEnv` is the environment of the housekeeping-task branch's single
upstream call, `attempts` supplies one entry per tool-seeking upstream call,
and `pass2` is the environment of the post-tool-call call. The bypass branch
reads `data['messages']` directly, so a missing `messages` key raises a
`KeyError` that the outer handler turns into one error object. -/
def generateResponse (req : ChatRequest) (bypassEnv : PassEnv)
    (attempts : List AttemptEnv) (pass2 : PassEnv) : List Event :=
  let streaming := req.stream.getD true
  if functionCallFlag req.metadataTask then
    let msgs := processedMessages req
    let r := runLoop streaming msgs (loopModel req) attempts 0
    match r.2 with
    | LoopResult.success res =>
      r.1 ++
        Event.upstream (loopModel req) false streaming (msgs ++ [⟨"tool", res⟩]) ::
          relayPass2 streaming pass2
    | _ => r.1
  else
    match req.messages with
    | none => [Event.yieldB (outerErrorJson "KeyError")]
    | some ms =>
      Event.upstream "llama3.2:1b" false streaming (injectSystem ms) :: relayBypass bypassEnv

/-- The byte strings yielded to the client, in order. -/
def yieldsOf (evs : List Event) : List String :=
  evs.filterMap (fun e =>
    match e with
    | Event.yieldB s => some s
    | _ => none)

/-- Concatenation of a list of strings. -/
def concatStrings : List String → String
  | [] => ""
  | s :: rest => s ++ concatStrings rest

/-- The client-visible response body: concatenation of all yielded bytes. -/
def bodyOf (evs : List Event) : String :=
  concatStrings (yieldsOf evs)

/-- Number of upstream calls issued with a `tools` list in the request body. -/
def toolSeekingCalls (evs : List Event) : Nat :=
  (evs.filter (fun e =>
    match e with
    | Event.upstream _ ht _ _ => ht
    | _ => false)).length

/-- Number of capability invocations in a trace. -/
def invokeCount (evs : List Event) : Nat :=
  (evs.filter (fun e =>
    match e with
    | Event.invoke _ => true
    | _ => false)).length

/-- `media_type="application/x-ndjson" if is_streaming else "application/json"`
(line 283). -/
def chatMediaType (streaming : Bool) : String :=
  if streaming then "application/x-ndjson" else "application/json"

/-! ### The sports-data capability functions (`nba_tools.py`)

The balldontlie provider is an external collaborator; each real-API call is
supplied as an `Except String payload` environment argument (`Except.error e`
models the provider raising an exception with `str` equal to `e`). The mock
branch depends only on the module's mock tables. Each function additionally
reports whether the provider was contacted. -/

/-- Python's substring test over character lists. -/
def charsContain (needle : List Char) : List Char → Bool
  | [] => needle.isEmpty
  | c :: rest => needle.isPrefixOf (c :: rest) || charsContain needle rest

/-- Python `needle in hay` on strings. -/
def pyIn (needle hay : String) : Bool :=
  charsContain needle.data hay.data

/-- Python `str.lower()` (the sources only lower ASCII names). -/
def pyLower (s : String) : String :=
  String.mk (s.data.map Char.toLower)

/-- An NBA team record as in `MOCK_TEAMS` (lines 40-57). -/
structure Team where
  id : Nat
  name : String
  full_name : String
  city : String
  conference : String
  division : String
deriving DecidableEq, Repr

def warriorsTeam : Team :=
  ⟨1, "Warriors", "Golden State Warriors", "Golden State", "West", "Pacific"⟩

def lakersTeam : Team :=
  ⟨2, "Lakers", "Los Angeles Lakers", "Los Angeles", "West", "Pacific"⟩

/-- `MOCK_TEAMS` (lines 40-57). -/
def MOCK_TEAMS : List Team :=
  [warriorsTeam, lakersTeam]

/-- The nested `team` dict of a mock player. -/
structure TeamRef where
  id : Nat
  name : String
  full_name : String
deriving DecidableEq, Repr

/-- An NBA player record as in `MOCK_PLAYERS` (lines 9-38). -/
structure Player where
  id : Nat
  first_name : String
  last_name : String
  position : String
  height_feet : Nat
  height_inches : Nat
  weight_pounds : Nat
  team : TeamRef
deriving DecidableEq, Repr

/-- `MOCK_PLAYERS` (lines 9-38). -/
def MOCK_PLAYERS : List Player :=
  [⟨1, "Stephen", "Curry", "G", 6, 3, 185, ⟨1, "Warriors", "Golden State Warriors"⟩⟩,
   ⟨2, "LeBron", "James", "F", 6, 9, 250, ⟨2, "Lakers", "Los Angeles Lakers"⟩⟩]

/-- An NBA game record as in `MOCK_GAMES` (lines 98-107). -/
structure Game where
  id : Nat
  date : String
  home_team : Team
  visitor_team : Team
  home_team_score : Nat
  visitor_team_score : Nat
deriving DecidableEq, Repr

/-- `MOCK_GAMES` (lines 98-107). -/
def MOCK_GAMES : List Game :=
  [⟨1, "2024-03-15", warriorsTeam, lakersTeam, 120, 115⟩]

/-- Result of `get_player_info`: a player record or an error dict. -/
inductive PlayerResult where
  | player (p : Player)
  | error (msg : String)
deriving DecidableEq, Repr

/-- Result of `get_team_info`: a team record or an error dict. -/
inductive TeamResult where
  | team (t : Team)
  | error (msg : String)
deriving DecidableEq, Repr

/-- Result of `get_game_info`: a list of game records or an error dict. -/
inductive GameResult where
  | games (gs : List Game)
  | error (msg : String)
deriving DecidableEq, Repr

/-- The mock-branch match test of `get_player_info` (lines 197-199):
both lowered names must occur in the lowered `"first last"` full name. -/
def playerMatches (first last : String) (p : Player) : Bool :=
  let full := p.first_name ++ " " ++ p.last_name
  pyIn (pyLower first) (pyLower full) && pyIn (pyLower last) (pyLower full)

/-- `get_player_info` (`nba_tools.py` lines 179-226). The second component
records whether the provider was contacted. The mock branch returns the first
matching player; the real branch returns the first element of the provider's
answer. Every provider exception is caught and returned as an error dict. -/
def get_player_info (player_first_name player_last_name : String) (useMockData : Bool)
    (provider : Except String (List Player)) : PlayerResult × Bool :=
  if player_first_name = "" ∨ player_last_name = "" then
    (PlayerResult.error "First name and last name are required", false)
  else if useMockData then
    match MOCK_PLAYERS.find? (playerMatches player_first_name player_last_name) with
    | some p => (PlayerResult.player p, false)
    | none =>
      (PlayerResult.error
        ("No player found with name " ++ player_first_name ++ " " ++ player_last_name), false)
  else
    match provider with
    | Except.error e => (PlayerResult.error ("Error fetching player info: " ++ e), true)
    | Except.ok players =>
      match players with
      | [] =>
        (PlayerResult.error
          ("No player found with name " ++ player_first_name ++ " " ++ player_last_name), true)
      | p :: _ => (PlayerResult.player p, true)

/-- The match test of `get_team_info` (lines 247, 268): the lowered query is a
substring of the lowered `full_name` or of the lowered `name`. -/
def teamMatches (team_name : String) (t : Team) : Bool :=
  pyIn (pyLower team_name) (pyLower t.full_name) || pyIn (pyLower team_name) (pyLower t.name)

/-- The shared lookup of `get_team_info` over a team list (lines 245-257 and
265-278): collect matches in order; more than one is ambiguous, exactly one is
returned, none is an error naming the query. -/
def teamLookup (team_name : String) (teams : List Team) (usedProvider : Bool) :
    TeamResult × Bool :=
  let matching_teams := teams.filter (teamMatches team_name)
  if matching_teams.length > 1 then
    (TeamResult.error "Multiple teams found. Please use full team name.", usedProvider)
  else
    match matching_teams with
    | [t] => (TeamResult.team t, usedProvider)
    | _ => (TeamResult.error ("No team found with name " ++ team_name), usedProvider)

/-- `get_team_info` (`nba_tools.py` lines 228-283). -/
def get_team_info (team_name : String) (useMockData : Bool)
    (provider : Except String (List Team)) : TeamResult × Bool :=
  if team_name = "" then
    (TeamResult.error "Team name is required", false)
  else if useMockData then
    teamLookup team_name MOCK_TEAMS false
  else
    match provider with
    | Except.error e => (TeamResult.error ("Error fetching team info: " ++ e), true)
    | Except.ok teams => teamLookup team_name teams true

/-- The mock-branch match test of `get_game_info` (lines 310-311): exact
case-insensitive equality on both team names. -/
def mockGameMatches (home_team away_team : String) (g : Game) : Bool :=
  pyLower g.home_team.name == pyLower home_team &&
    pyLower g.visitor_team.name == pyLower away_team

/-- The real-branch match test of `get_game_info` (lines 344-345): lowered
substring containment on both team names. -/
def realGameMatches (home_team away_team : String) (g : Game) : Bool :=
  pyIn (pyLower home_team) (pyLower g.home_team.name) &&
    pyIn (pyLower away_team) (pyLower g.visitor_team.name)

/-- `get_game_info` (`nba_tools.py` lines 285-359). `season` is falsy in
Python exactly when it is `0`. On one or more matches the (nonempty) match
list is returned; every provider exception is caught as an error dict. -/
def get_game_info (season : Int) (home_team away_team : String) (useMockData : Bool)
    (provider : Except String (List Game)) : GameResult × Bool :=
  if home_team = "" then (GameResult.error "home_team name is required", false)
  else if away_team = "" then (GameResult.error "away_team name is required", false)
  else if season = 0 then (GameResult.error "season name is required", false)
  else if useMockData then
    let matching_games := MOCK_GAMES.filter (mockGameMatches home_team away_team)
    if matching_games.length ≥ 1 then (GameResult.games matching_games, false)
    else (GameResult.error "No games found", false)
  else
    match provider with
    | Except.error e => (GameResult.error ("Error fetching game info: " ++ e), true)
    | Except.ok all_games =>
      let matching_games := all_games.filter (realGameMatches home_team away_team)
      if matching_games.length ≥ 1 then (GameResult.games matching_games, true)
      else (GameResult.error "No games found", true)

/-! ### Module-level binding of the Capability Registry -/

/-- The function names bound by an (uncommented) `def` statement at module
scope of `nba_tools.py`; the remaining tool definitions in that file
(`get_team_standings`, `get_player_season_stats`, `get_league_leaders`,
`get_game_odds`, `get_player_injuries`, `get_head_to_head_stats`, lines
361-674) exist only as commented-out code. -/
def nbaToolsDefinedNames : List String :=
  ["set_debug_mode", "debug_print", "set_use_mock_data",
   "get_player_info", "get_team_info", "get_game_info"]

/-- The names `custom_llm_server_with_tools.py` imports
`from nba_tools import ...` (lines 14-23). -/
def withToolsImportedNames : List String :=
  ["get_player_injuries", "get_game_odds", "get_head_to_head_stats",
   "get_league_leaders", "get_player_info", "get_team_info", "get_team_standings"]

/-- A Python `from nba_tools import a, b, ...` statement succeeds exactly when
every imported name is bound at module scope of `nba_tools`. -/
def importSucceeds : Bool :=
  withToolsImportedNames.all (fun n => nbaToolsDefinedNames.contains n)


/-! ### Derived observations and helper lemmas -/

/-- Does a chunk carry a `tool_calls` field (the detection test of line 205)? -/
def chunkDetects (c : Chunk) : Bool :=
  match c.parsed with
  | some pc => pc.toolCalls.isSome
  | none => false

/-- Number of failing attempts in an environment prefix. -/
def failCount (es : List AttemptEnv) : Nat :=
  (es.filter (fun a => a.raises.isSome)).length

/-- Trace of one tool-seeking pass that completes with no detected tool call
and no exception: the upstream call, then each chunk relayed as it arrives
(streaming) or the single accumulated yield (non-streaming). -/
def passNoDetectEvents (streaming : Bool) (msgs : List Msg) (model : String)
    (a : AttemptEnv) : List Event :=
  Event.upstream model true streaming msgs ::
    (if streaming then a.chunks.map (fun c => Event.yieldB c.bytes)
     else [Event.yieldB (concatBytes a.chunks)])

/-- Trace of one failing pass (no detection, exception after its chunks):
in streaming mode the chunks were already relayed; in non-streaming mode the
accumulated response is never yielded. -/
def passFailEvents (streaming : Bool) (msgs : List Msg) (model : String)
    (a : AttemptEnv) : List Event :=
  Event.upstream model true streaming msgs ::
    (if streaming then a.chunks.map (fun c => Event.yieldB c.bytes) else [])

/-- Trace of a list of non-detecting passes, each completing or failing. -/
def contEvents (streaming : Bool) (msgs : List Msg) (model : String) :
    List AttemptEnv → List Event
  | [] => []
  | a :: rest =>
    (match a.raises with
     | none => passNoDetectEvents streaming msgs model a
     | some _ => passFailEvents streaming msgs model a) ++
      contEvents streaming msgs model rest

/-- The exception message of the last attempt in a list, if any. -/
def lastRaise : List AttemptEnv → Option String
  | [] => none
  | [a] => a.raises
  | _ :: b :: t => lastRaise (b :: t)

/-- The raw bytes of every chunk of every attempt, in order. -/
def allChunkBytes : List AttemptEnv → List String
  | [] => []
  | a :: t => a.chunks.map Chunk.bytes ++ allChunkBytes t

/-- The opening brace character. -/
def openBraceChar : Char := Char.ofNat 123

/-- The closing brace character. -/
def closeBraceChar : Char := Char.ofNat 125

/-- Counts, at brace nesting depth `d`, the positions where the depth returns
to zero. -/
def topLevelObjectsAux : List Char → Nat → Nat
  | [], _ => 0
  | c :: rest, d =>
    if c = openBraceChar then topLevelObjectsAux rest (d + 1)
    else if c = closeBraceChar then
      (if d = 1 then 1 else 0) + topLevelObjectsAux rest (d - 1)
    else topLevelObjectsAux rest d

/-- Number of brace-balanced returns to top level. On a body whose JSON string
literals contain no brace characters this is the number of top-level JSON
objects in the body; a body that is a single JSON object has value 1. -/
def topLevelObjects (s : String) : Nat := topLevelObjectsAux s.data 0

/-! Concrete inputs used by the counterexamples and witnesses. -/

/-- A one-message user conversation. -/
def userMsg : Msg := ⟨"user", "hi"⟩

/-- A streamed chat request with that conversation and no metadata. -/
def reqStream : ChatRequest := ⟨some [userMsg], none, some true, none⟩

/-- The same request with `stream = false`. -/
def reqNoStream : ChatRequest := ⟨some [userMsg], none, some false, none⟩

/-- An empty relay environment. -/
def emptyPass : PassEnv := ⟨[], none⟩

/-- A chunk that parses to an ordinary assistant message with no tool-call
field. -/
def directChunk : Chunk := ⟨"\x7b\"message\":\x7b\"content\":\"hi\"\x7d\x7d", some ⟨none⟩⟩

/-- A pass that completes with only `directChunk`: no tool call, no error. -/
def directPass : AttemptEnv := ⟨[directChunk], none, Except.ok ""⟩

/-- A tool-call directive for `get_team_info`. -/
def tcLakers : ToolCall := ⟨"get_team_info", [("team_name", "Lakers")]⟩

/-- A chunk that parses to a message carrying one tool call. -/
def detectChunk : Chunk :=
  ⟨"\x7b\"message\": \x7b\"tool_calls\": [\x7b\"function\": \x7b\"name\": \"get_team_info\"\x7d\x7d]\x7d\x7d",
   some ⟨some [tcLakers]⟩⟩

/-- A pass that detects the tool call but whose `use_tools` raises. -/
def detectFailPass : AttemptEnv := ⟨[detectChunk], none, Except.error "bad tool arguments"⟩

/-- A pass that detects the tool call and whose `use_tools` succeeds. -/
def detectOkPass : AttemptEnv := ⟨[detectChunk], none, Except.ok "tool result"⟩

/-- A pass that relays one ordinary chunk and then raises mid-stream. -/
def relayFailPass : AttemptEnv := ⟨[directChunk], some "connection reset", Except.ok ""⟩

/-- A pass that raises at connection time, before any chunk. -/
def connFailPass : AttemptEnv := ⟨[], some "conn", Except.ok ""⟩

/-- An undecodable fragment: the first half of a JSON object. -/
def fragA : Chunk := ⟨"\x7b\"mess", none⟩

/-- An undecodable fragment: the second half of the same JSON object. -/
def fragB : Chunk := ⟨"age\": 1\x7d", none⟩

/-- A pass delivering the two fragments, completing without error. -/
def fragPass : AttemptEnv := ⟨[fragA, fragB], none, Except.ok ""⟩

/-- A chunk that parses to a complete JSON object with no tool-call field. -/
def objA : Chunk := ⟨"\x7b\"a\": 1\x7d", some ⟨none⟩⟩

/-- Another complete JSON object chunk. -/
def objB : Chunk := ⟨"\x7b\"b\": 2\x7d", some ⟨none⟩⟩

/-- A tool-seeking pass that accumulates `objA` and then detects a tool call. -/
def c6Pass1 : AttemptEnv := ⟨[objA, detectChunk], none, Except.ok "tool result"⟩

/-- A second-pass environment delivering `objB`. -/
def c6Pass2 : PassEnv := ⟨[objB], none⟩

theorem processChunks_noDetect (streaming : Bool) (cs : List Chunk)
    (h : ∀ c ∈ cs, chunkDetects c = false) :
    processChunks streaming cs =
      (if streaming then cs.map Chunk.bytes else [],
       if streaming then "" else concatBytes cs, none) := by
  induction cs with
  | nil => cases streaming <;> simp [processChunks, concatBytes]
  | cons c rest ih =>
    have hc : chunkDetects c = false := h c (by simp)
    have hrest : ∀ x ∈ rest, chunkDetects x = false := fun x hx => h x (by simp [hx])
    cases hp : c.parsed with
    | none =>
      cases streaming <;>
        simp [processChunks, hp, ih hrest, concatBytes]
    | some pc =>
      have hpc : pc.toolCalls = none := by
        simp only [chunkDetects, hp] at hc
        cases hq : pc.toolCalls with
        | none => rfl
        | some _ => rw [hq] at hc; simp at hc
      cases streaming <;>
        simp [processChunks, hp, hpc, ih hrest, concatBytes]

theorem processChunks_false_relays (cs : List Chunk) :
    (processChunks false cs).1 = [] := by
  induction cs with
  | nil => rfl
  | cons c rest ih =>
    cases hp : c.parsed with
    | none => simp [processChunks, hp, ih]
    | some pc =>
      cases hq : pc.toolCalls with
      | none => simp [processChunks, hp, hq, ih]
      | some _ => simp [processChunks, hp, hq]

theorem runLoop_noDetect_continues (streaming : Bool) (msgs : List Msg) (model : String)
    (a : AttemptEnv) (rest : List AttemptEnv) (retry : Nat)
    (hr : retry < maxRetries)
    (hd : ∀ c ∈ a.chunks, chunkDetects c = false)
    (he : a.raises = none) :
    runLoop streaming msgs model (a :: rest) retry =
      (passNoDetectEvents streaming msgs model a ++ (runLoop streaming msgs model rest retry).1,
       (runLoop streaming msgs model rest retry).2) := by
  rw [runLoop, if_pos hr]
  simp only [processChunks_noDetect streaming a.chunks hd, he]
  cases streaming <;>
    simp [passNoDetectEvents, List.map_map, Function.comp]

theorem runLoop_fail_step (streaming : Bool) (msgs : List Msg) (model : String)
    (a : AttemptEnv) (rest : List AttemptEnv) (retry : Nat) (e : String)
    (hr : retry < maxRetries)
    (hd : ∀ c ∈ a.chunks, chunkDetects c = false)
    (he : a.raises = some e) :
    runLoop streaming msgs model (a :: rest) retry =
      if retry + 1 < maxRetries then
        (passFailEvents streaming msgs model a ++ (runLoop streaming msgs model rest (retry + 1)).1,
         (runLoop streaming msgs model rest (retry + 1)).2)
      else
        (passFailEvents streaming msgs model a ++ [Event.yieldB (toolErrorJson e)],
         LoopResult.errored) := by
  rw [runLoop, if_pos hr]
  simp only [processChunks_noDetect streaming a.chunks hd, he]
  by_cases h2 : retry + 1 < maxRetries <;>
    cases streaming <;>
      simp [h2, passFailEvents, List.map_map, Function.comp]

theorem runLoop_detect_ok_step (streaming : Bool) (msgs : List Msg) (model : String)
    (a : AttemptEnv) (rest : List AttemptEnv) (retry : Nat)
    (rels : List String) (acc : String) (tcs : List ToolCall) (res : String)
    (hr : retry < maxRetries)
    (hp : processChunks streaming a.chunks = (rels, acc, some tcs))
    (hne : tcs ≠ [])
    (hok : a.invokeResult = Except.ok res) :
    runLoop streaming msgs model (a :: rest) retry =
      (Event.upstream model true streaming msgs ::
        (rels.map Event.yieldB ++ (if streaming then [] else [Event.yieldB acc]) ++
          [Event.invoke tcs.head?]),
       LoopResult.success res) := by
  rw [runLoop, if_pos hr]
  have hne' : tcs.isEmpty = false := by
    cases tcs with
    | nil => exact absurd rfl hne
    | cons t ts => rfl
  simp only [hp, hne', hok]
  cases streaming <;> simp [useToolsEvents]

theorem runLoop_contSegment (streaming : Bool) (msgs : List Msg) (model : String)
    (pre rest : List AttemptEnv) (retry : Nat)
    (hd : ∀ a ∈ pre, ∀ c ∈ a.chunks, chunkDetects c = false)
    (hb : retry + failCount pre ≤ 9) :
    runLoop streaming msgs model (pre ++ rest) retry =
      (contEvents streaming msgs model pre ++
        (runLoop streaming msgs model rest (retry + failCount pre)).1,
       (runLoop streaming msgs model rest (retry + failCount pre)).2) := by
  induction pre generalizing retry with
  | nil => simp [contEvents, failCount]
  | cons a t ih =>
    have hda : ∀ c ∈ a.chunks, chunkDetects c = false := hd a (by simp)
    have hdt : ∀ x ∈ t, ∀ c ∈ x.chunks, chunkDetects c = false :=
      fun x hx => hd x (by simp [hx])
    cases he : a.raises with
    | none =>
      have hfc : failCount (a :: t) = failCount t := by
        simp [failCount, List.filter_cons, he]
      have hb' : retry + failCount t ≤ 9 := by rw [hfc] at hb; exact hb
      have hmax : maxRetries = 10 := rfl
      have hr : retry < maxRetries := by omega
      rw [List.cons_append, runLoop_noDetect_continues streaming msgs model a (t ++ rest) retry hr hda he,
        ih retry hdt hb']
      simp [contEvents, he, hfc]
    | some e =>
      have hfc : failCount (a :: t) = failCount t + 1 := by
        simp [failCount, List.filter_cons, he]
      have hb' : retry + 1 + failCount t ≤ 9 := by rw [hfc] at hb; omega
      have hmax : maxRetries = 10 := rfl
      have hr : retry < maxRetries := by omega
      have hr1 : retry + 1 < maxRetries := by omega
      rw [List.cons_append, runLoop_fail_step streaming msgs model a (t ++ rest) retry e hr hda he,
        if_pos hr1, ih (retry + 1) hdt hb']
      have harith : retry + 1 + failCount t = retry + failCount (a :: t) := by
        rw [hfc]; omega
      simp [contEvents, he, harith]

theorem runLoop_allFail (streaming : Bool) (msgs : List Msg) (model : String)
    (es rest : List AttemptEnv) (retry : Nat) (e : String)
    (hfail : ∀ a ∈ es, (∀ c ∈ a.chunks, chunkDetects c = false) ∧ a.raises.isSome)
    (hlen : retry + es.length = maxRetries)
    (hne : es ≠ [])
    (hlast : lastRaise es = some e) :
    runLoop streaming msgs model (es ++ rest) retry =
      (contEvents streaming msgs model es ++ [Event.yieldB (toolErrorJson e)],
       LoopResult.errored) := by
  induction es generalizing retry with
  | nil => exact absurd rfl hne
  | cons a t ih =>
    have hda : ∀ c ∈ a.chunks, chunkDetects c = false := (hfail a (by simp)).1
    obtain ⟨ea, hea⟩ : ∃ x, a.raises = some x := by
      have := (hfail a (by simp)).2
      cases hx : a.raises with
      | none => rw [hx] at this; simp at this
      | some x => exact ⟨x, rfl⟩
    have hmax : maxRetries = 10 := rfl
    cases t with
    | nil =>
      have hretry : retry + 1 = maxRetries := by simpa using hlen
      have hr : retry < maxRetries := by omega
      have hea' : ea = e := by
        rw [lastRaise] at hlast
        rw [hea] at hlast
        exact Option.some_injective _ hlast
      rw [List.cons_append, List.nil_append,
        runLoop_fail_step streaming msgs model a rest retry ea hr hda hea,
        if_neg (by omega)]
      simp [contEvents, hea, hea']
    | cons b t' =>
      have hr : retry < maxRetries := by
        simp [List.length] at hlen
        omega
      have hr1 : retry + 1 < maxRetries := by
        simp [List.length] at hlen
        omega
      have hlen' : (retry + 1) + (b :: t').length = maxRetries := by
        simp [List.length] at hlen ⊢
        omega
      have hfail' : ∀ x ∈ b :: t', (∀ c ∈ x.chunks, chunkDetects c = false) ∧ x.raises.isSome :=
        fun x hx => hfail x (by simp at hx ⊢; tauto)
      have hlast' : lastRaise (b :: t') = some e := by
        rw [lastRaise] at hlast
        exact hlast
      rw [List.cons_append,
        runLoop_fail_step streaming msgs model a ((b :: t') ++ rest) retry ea hr hda hea,
        if_pos hr1, ih (retry + 1) hfail' hlen' (by simp) hlast']
      simp [contEvents, hea]

theorem yieldsOf_append (l1 l2 : List Event) :
    yieldsOf (l1 ++ l2) = yieldsOf l1 ++ yieldsOf l2 := by
  simp [yieldsOf, List.filterMap_append]

theorem yieldsOf_yieldMap {α : Type} (f : α → String) (l : List α) :
    yieldsOf (l.map (fun a => Event.yieldB (f a))) = l.map f := by
  induction l with
  | nil => rfl
  | cons a t ih => exact congrArg (List.cons (f a)) ih

theorem toolSeekingCalls_append (l1 l2 : List Event) :
    toolSeekingCalls (l1 ++ l2) = toolSeekingCalls l1 + toolSeekingCalls l2 := by
  simp [toolSeekingCalls, List.filter_append]

theorem toolSeekingCalls_yieldMap {α : Type} (f : α → String) (l : List α) :
    toolSeekingCalls (l.map (fun a => Event.yieldB (f a))) = 0 := by
  induction l with
  | nil => rfl
  | cons a t ih => exact ih

theorem invokeCount_append (l1 l2 : List Event) :
    invokeCount (l1 ++ l2) = invokeCount l1 + invokeCount l2 := by
  simp [invokeCount, List.filter_append]

theorem invokeCount_yieldMap {α : Type} (f : α → String) (l : List α) :
    invokeCount (l.map (fun a => Event.yieldB (f a))) = 0 := by
  induction l with
  | nil => rfl
  | cons a t ih => exact ih

theorem invokeCount_relayBypass (p : PassEnv) : invokeCount (relayBypass p) = 0 := by
  cases hp : p.raises <;>
    simp [relayBypass, hp, invokeCount_append, invokeCount_yieldMap Chunk.bytes, invokeCount,
      List.filter_cons]

theorem toolSeekingCalls_relayBypass (p : PassEnv) : toolSeekingCalls (relayBypass p) = 0 := by
  cases hp : p.raises <;>
    simp [relayBypass, hp, toolSeekingCalls_append, toolSeekingCalls_yieldMap Chunk.bytes,
      toolSeekingCalls, List.filter_cons]

theorem invokeCount_relayPass2 (streaming : Bool) (p : PassEnv) :
    invokeCount (relayPass2 streaming p) = 0 := by
  cases hp : p.raises <;> cases streaming <;>
    simp [relayPass2, hp, invokeCount_append, invokeCount_yieldMap Chunk.bytes, invokeCount,
      List.filter_cons]

theorem invokeCount_passNoDetectEvents (streaming : Bool) (msgs : List Msg) (model : String)
    (a : AttemptEnv) : invokeCount (passNoDetectEvents streaming msgs model a) = 0 := by
  cases streaming <;>
    simp [passNoDetectEvents, invokeCount, List.filter_cons, invokeCount_yieldMap Chunk.bytes]

theorem invokeCount_passFailEvents (streaming : Bool) (msgs : List Msg) (model : String)
    (a : AttemptEnv) : invokeCount (passFailEvents streaming msgs model a) = 0 := by
  cases streaming <;>
    simp [passFailEvents, invokeCount, List.filter_cons, invokeCount_yieldMap Chunk.bytes]

theorem invokeCount_contEvents (streaming : Bool) (msgs : List Msg) (model : String)
    (es : List AttemptEnv) : invokeCount (contEvents streaming msgs model es) = 0 := by
  induction es with
  | nil => rfl
  | cons a t ih =>
    cases ha : a.raises <;>
      simp [contEvents, ha, invokeCount_append, ih, invokeCount_passNoDetectEvents,
        invokeCount_passFailEvents]

theorem yieldsOf_passFailEvents (streaming : Bool) (msgs : List Msg) (model : String)
    (a : AttemptEnv) :
    yieldsOf (passFailEvents streaming msgs model a) =
      if streaming then a.chunks.map Chunk.bytes else [] := by
  cases streaming with
  | false => rfl
  | true =>
    have h0 : yieldsOf (passFailEvents true msgs model a) =
        yieldsOf (a.chunks.map (fun c => Event.yieldB c.bytes)) := rfl
    rw [h0, yieldsOf_yieldMap Chunk.bytes a.chunks]
    rfl

theorem yieldsOf_contEvents_allFail (streaming : Bool) (msgs : List Msg) (model : String)
    (es : List AttemptEnv) (h : ∀ a ∈ es, a.raises.isSome) :
    yieldsOf (contEvents streaming msgs model es) =
      if streaming then allChunkBytes es else [] := by
  induction es with
  | nil => cases streaming <;> rfl
  | cons a t ih =>
    obtain ⟨ea, hea⟩ : ∃ x, a.raises = some x := by
      have := h a (by simp)
      cases hx : a.raises with
      | none => rw [hx] at this; simp at this
      | some x => exact ⟨x, rfl⟩
    have ht : ∀ x ∈ t, x.raises.isSome := fun x hx => h x (by simp [hx])
    cases streaming <;>
      simp [contEvents, hea, yieldsOf_append, yieldsOf_passFailEvents, ih ht, allChunkBytes]

/-! ### Claim theorems -/

theorem noSystem_filter_nil (msgs : List Msg) (h : hasSystem msgs = false) :
    msgs.filter (fun m => m.role == "system") = [] := by
  induction msgs with
  | nil => rfl
  | cons m t ih =>
    rw [hasSystem, List.any_cons, Bool.or_eq_false_iff] at h
    rw [List.filter_cons]
    rw [h.1]
    exact ih h.2

/-- C2: the with-tools server's Capability Registry cannot be constructed:
`custom_llm_server_with_tools.py` imports seven capability names from
`nba_tools`, but five of them (`get_player_injuries`, `get_game_odds`,
`get_head_to_head_stats`, `get_league_leaders`, `get_team_standings`) are not
bound at module scope of `nba_tools.py` (their definitions are commented out),
so the `from nba_tools import ...` statement raises `ImportError` at process
start and module initialization fails, contrary to the claim. -/
theorem C2_registry_import_fails :
    importSucceeds = false ∧
      nbaToolsDefinedNames.contains "get_player_injuries" = false ∧
      nbaToolsDefinedNames.contains "get_game_odds" = false ∧
      nbaToolsDefinedNames.contains "get_head_to_head_stats" = false ∧
      nbaToolsDefinedNames.contains "get_league_leaders" = false ∧
      nbaToolsDefinedNames.contains "get_team_standings" = false ∧
      withToolsImportedNames.contains "get_player_injuries" = true := by
  decide

/-- C7: a conversation with no `system` message gets exactly one system
message, inserted at index 0; a conversation that already has one is left
unchanged by the injection step. -/
theorem C7_system_injection (msgs : List Msg) :
    (hasSystem msgs = false →
      injectSystem msgs = ⟨"system", systemPromptWithTools⟩ :: msgs ∧
      ((injectSystem msgs).filter (fun m => m.role == "system")).length = 1 ∧
      (injectSystem msgs).head? = some ⟨"system", systemPromptWithTools⟩) ∧
    (hasSystem msgs = true → injectSystem msgs = msgs) := by
  constructor
  · intro h
    have heq : injectSystem msgs = ⟨"system", systemPromptWithTools⟩ :: msgs := by
      rw [injectSystem, h]
      simp
    refine ⟨heq, ?_, by rw [heq]; rfl⟩
    rw [heq, List.filter_cons]
    simp only [noSystem_filter_nil msgs h]
    rfl
  · intro h
    rw [injectSystem, h]
    simp

/-- C7 witness: a user-only conversation gains the system message at index 0
and then has exactly one system message; a conversation with a system message
is unchanged. -/
theorem C7_witness :
    injectSystem [⟨"user", "hi"⟩] =
        ⟨"system", systemPromptWithTools⟩ :: [⟨"user", "hi"⟩] ∧
      ((injectSystem [⟨"user", "hi"⟩]).filter (fun m => m.role == "system")).length = 1 ∧
      injectSystem [⟨"system", "s"⟩, ⟨"user", "hi"⟩] = [⟨"system", "s"⟩, ⟨"user", "hi"⟩] :=
  ⟨((C7_system_injection [⟨"user", "hi"⟩]).1 (by decide)).1,
   ((C7_system_injection [⟨"user", "hi"⟩]).1 (by decide)).2.1,
   (C7_system_injection [⟨"system", "s"⟩, ⟨"user", "hi"⟩]).2 (by decide)⟩

/-- C8: a request whose `metadata.task` is one of the three housekeeping task
names bypasses the tool-calling path entirely, whatever the conversation
content: the trace is a single upstream call with the fixed model
`llama3.2:1b` and no tools, followed by the plain relay of that call's
chunks; no tool-seeking call and no capability invocation occurs. -/
theorem C8_housekeeping_bypass (req : ChatRequest) (ms : List Msg)
    (bypassEnv : PassEnv) (attempts : List AttemptEnv) (pass2 : PassEnv)
    (hm : req.messages = some ms)
    (ht : req.metadataTask = some "tags_generation" ∨
      req.metadataTask = some "title_generation" ∨
      req.metadataTask = some "autocomplete_generation") :
    generateResponse req bypassEnv attempts pass2 =
      Event.upstream "llama3.2:1b" false (req.stream.getD true) (injectSystem ms) ::
        relayBypass bypassEnv ∧
    toolSeekingCalls (generateResponse req bypassEnv attempts pass2) = 0 ∧
    invokeCount (generateResponse req bypassEnv attempts pass2) = 0 := by
  have hf : functionCallFlag req.metadataTask = false := by
    rcases ht with h | h | h <;> rw [h] <;> rfl
  have hmain : generateResponse req bypassEnv attempts pass2 =
      Event.upstream "llama3.2:1b" false (req.stream.getD true) (injectSystem ms) ::
        relayBypass bypassEnv := by
    rw [generateResponse, hf]
    simp [hm]
  refine ⟨hmain, ?_, ?_⟩ <;> rw [hmain]
  · have h1 : toolSeekingCalls
        (Event.upstream "llama3.2:1b" false (req.stream.getD true) (injectSystem ms) ::
          relayBypass bypassEnv) = toolSeekingCalls (relayBypass bypassEnv) := rfl
    rw [h1, toolSeekingCalls_relayBypass]
  · have h1 : invokeCount
        (Event.upstream "llama3.2:1b" false (req.stream.getD true) (injectSystem ms) ::
          relayBypass bypassEnv) = invokeCount (relayBypass bypassEnv) := rfl
    rw [h1, invokeCount_relayBypass]

/-- C8 witness: a concrete `title_generation` request is forwarded with the
fixed lightweight model, no tools and no invocations. -/
theorem C8_witness :
    generateResponse
        ⟨some [⟨"user", "long conversation"⟩], some "llama3.1:latest", some true,
          some "title_generation"⟩
        ⟨[⟨"ok", some ⟨none⟩⟩], none⟩ [] ⟨[], none⟩ =
      Event.upstream "llama3.2:1b" false true
          (injectSystem [⟨"user", "long conversation"⟩]) ::
        relayBypass ⟨[⟨"ok", some ⟨none⟩⟩], none⟩ ∧
    invokeCount (generateResponse
        ⟨some [⟨"user", "long conversation"⟩], some "llama3.1:latest", some true,
          some "title_generation"⟩
        ⟨[⟨"ok", some ⟨none⟩⟩], none⟩ [] ⟨[], none⟩) = 0 :=
  ⟨(C8_housekeeping_bypass _ _ _ _ _ rfl (Or.inr (Or.inl rfl))).1,
   (C8_housekeeping_bypass _ _ _ _ _ rfl (Or.inr (Or.inl rfl))).2.2⟩

/-- C9: in mock-data mode, `get_team_info` classifies its input by the number
of mock teams whose `name` or `full_name` contains the query
case-insensitively: more than one match is the ambiguity error, exactly one
match returns that team's record, no match is an error naming the query, and
the empty query is rejected up front without any lookup (in particular
without contacting the provider). -/
theorem C9_team_info_mock (team_name : String) (provider : Except String (List Team)) :
    (team_name = "" →
      get_team_info team_name true provider = (TeamResult.error "Team name is required", false)) ∧
    (team_name ≠ "" →
      ((MOCK_TEAMS.filter (teamMatches team_name)).length > 1 →
        get_team_info team_name true provider =
          (TeamResult.error "Multiple teams found. Please use full team name.", false)) ∧
      (∀ t, MOCK_TEAMS.filter (teamMatches team_name) = [t] →
        get_team_info team_name true provider = (TeamResult.team t, false)) ∧
      (MOCK_TEAMS.filter (teamMatches team_name) = [] →
        get_team_info team_name true provider =
          (TeamResult.error ("No team found with name " ++ team_name), false))) := by
  refine ⟨fun h => by rw [get_team_info.eq_def, if_pos h], fun h => ⟨?_, ?_, ?_⟩⟩
  · intro hlen
    rw [get_team_info.eq_def, if_neg h]
    simp only [if_pos trivial, teamLookup]
    rw [if_pos hlen]
  · intro t hft
    rw [get_team_info.eq_def, if_neg h]
    simp only [if_pos trivial, teamLookup, hft]
    rfl
  · intro hft
    rw [get_team_info.eq_def, if_neg h]
    simp only [if_pos trivial, teamLookup, hft]
    rfl

/-- C9 witness: `"Lakers"` matches exactly one mock team and returns its
record; `"s"` matches both mock teams and is ambiguous; `"Celtics"` matches
none; the empty query is rejected. -/
theorem C9_witness :
    get_team_info "" true (Except.ok []) = (TeamResult.error "Team name is required", false) ∧
    get_team_info "Lakers" true (Except.ok []) = (TeamResult.team lakersTeam, false) ∧
    get_team_info "s" true (Except.ok []) =
      (TeamResult.error "Multiple teams found. Please use full team name.", false) ∧
    get_team_info "Celtics" true (Except.ok []) =
      (TeamResult.error "No team found with name Celtics", false) :=
  ⟨(C9_team_info_mock "" (Except.ok [])).1 rfl,
   ((C9_team_info_mock "Lakers" (Except.ok [])).2 (by decide)).2.1 lakersTeam (by decide),
   ((C9_team_info_mock "s" (Except.ok [])).2 (by decide)).1 (by decide),
   ((C9_team_info_mock "Celtics" (Except.ok [])).2 (by decide)).2.2 (by decide)⟩

/-- C10: `get_player_info`, `get_team_info` and `get_game_info` are total at
their interface: validation failures and every provider exception are caught
and returned as error values (never propagated), `get_player_info` rejects an
empty first or last name with the exact message "First name and last name are
required" without contacting the provider, and each call's result is always
either a success payload or an error value. -/
theorem C10_tools_total (first last team_name home away : String) (season : Int)
    (mock : Bool) (e : String)
    (pp : Except String (List Player)) (pt : Except String (List Team))
    (pg : Except String (List Game)) :
    ((first = "" ∨ last = "") →
      get_player_info first last mock pp =
        (PlayerResult.error "First name and last name are required", false)) ∧
    (first ≠ "" → last ≠ "" → mock = false → pp = Except.error e →
      get_player_info first last mock pp =
        (PlayerResult.error ("Error fetching player info: " ++ e), true)) ∧
    (team_name ≠ "" → mock = false → pt = Except.error e →
      get_team_info team_name mock pt =
        (TeamResult.error ("Error fetching team info: " ++ e), true)) ∧
    (home ≠ "" → away ≠ "" → season ≠ 0 → mock = false → pg = Except.error e →
      get_game_info season home away mock pg =
        (GameResult.error ("Error fetching game info: " ++ e), true)) ∧
    ((∃ p, (get_player_info first last mock pp).1 = PlayerResult.player p) ∨
      (∃ m, (get_player_info first last mock pp).1 = PlayerResult.error m)) ∧
    ((∃ t, (get_team_info team_name mock pt).1 = TeamResult.team t) ∨
      (∃ m, (get_team_info team_name mock pt).1 = TeamResult.error m)) ∧
    ((∃ gs, (get_game_info season home away mock pg).1 = GameResult.games gs) ∨
      (∃ m, (get_game_info season home away mock pg).1 = GameResult.error m)) := by
  refine ⟨?_, ?_, ?_, ?_, ?_, ?_, ?_⟩
  · intro h
    rw [get_player_info.eq_def, if_pos h]
  · intro h1 h2 hm hp
    rw [get_player_info.eq_def, if_neg (by tauto), hm, hp]
    simp
  · intro h1 hm hp
    rw [get_team_info.eq_def, if_neg h1, hm, hp]
    simp
  · intro h1 h2 h3 hm hp
    rw [get_game_info.eq_def, if_neg h1, if_neg h2, if_neg h3, hm, hp]
    simp
  · cases hres : (get_player_info first last mock pp).1 with
    | player p => exact Or.inl ⟨p, rfl⟩
    | error m => exact Or.inr ⟨m, rfl⟩
  · cases hres : (get_team_info team_name mock pt).1 with
    | team t => exact Or.inl ⟨t, rfl⟩
    | error m => exact Or.inr ⟨m, rfl⟩
  · cases hres : (get_game_info season home away mock pg).1 with
    | games gs => exact Or.inl ⟨gs, rfl⟩
    | error m => exact Or.inr ⟨m, rfl⟩

/-- C10 witness: the empty-name validation of `get_player_info` answers
without contacting the provider, and a raising provider is caught and
reported as an error dict by all three functions. -/
theorem C10_witness :
    get_player_info "" "Curry" true (Except.ok []) =
      (PlayerResult.error "First name and last name are required", false) ∧
    get_player_info "Stephen" "Curry" false (Except.error "boom") =
      (PlayerResult.error "Error fetching player info: boom", true) ∧
    get_team_info "Lakers" false (Except.error "boom") =
      (TeamResult.error "Error fetching team info: boom", true) ∧
    get_game_info 2023 "Warriors" "Lakers" false (Except.error "boom") =
      (GameResult.error "Error fetching game info: boom", true) :=
  ⟨(C10_tools_total "" "Curry" "x" "x" "x" 1 true "boom"
      (Except.ok []) (Except.ok []) (Except.ok [])).1 (Or.inl rfl),
   (C10_tools_total "Stephen" "Curry" "x" "x" "x" 1 false "boom"
      (Except.error "boom") (Except.ok []) (Except.ok [])).2.1
     (by decide) (by decide) rfl rfl,
   (C10_tools_total "x" "x" "Lakers" "x" "x" 1 false "boom"
      (Except.ok []) (Except.error "boom") (Except.ok [])).2.2.1
     (by decide) rfl rfl,
   (C10_tools_total "x" "x" "x" "Warriors" "Lakers" 2023 false "boom"
      (Except.ok []) (Except.ok []) (Except.error "boom")).2.2.2.1
     (by decide) (by decide) (by decide) rfl rfl⟩

/-- C1 counterexample: a streamed pass that completes with no tool-call field
and no error does not end the retry loop. With two such passes supplied, two
tool-seeking upstream calls are issued (the claim allows exactly one), and
after a single such pass the loop state still demands a further upstream call
(`envExhausted 0`, the retry counter unchanged): there is no DIRECT_ANSWER
exit in the code, because a pass without `tool_calls` leaves both
`tool_call_success` and `retry_count` untouched (the corrective `else` branch
at lines 227-232 is commented out). -/
theorem C1_counterexample :
    toolSeekingCalls (generateResponse reqStream emptyPass [directPass, directPass] emptyPass) = 2 ∧
    (runLoop true (injectSystem [userMsg]) "llama3.2:1b" [directPass] 0).2 =
      LoopResult.envExhausted 0 := by
  constructor <;> decide

/-- C1 amended: for every streamed pass of the tool-calling path whose stream
completes without a tool-call field and without error, every byte received
from that pass is relayed to the client in order exactly once during that
pass, and the retry loop then continues with the retry counter unchanged:
it issues a further identical upstream call rather than terminating (the
code has no DIRECT_ANSWER outcome). -/
theorem C1_amended (msgs : List Msg) (model : String) (a : AttemptEnv)
    (rest : List AttemptEnv) (retry : Nat)
    (hr : retry < maxRetries)
    (hd : ∀ c ∈ a.chunks, chunkDetects c = false)
    (he : a.raises = none) :
    runLoop true msgs model (a :: rest) retry =
      (Event.upstream model true true msgs ::
        (a.chunks.map (fun c => Event.yieldB c.bytes) ++ (runLoop true msgs model rest retry).1),
       (runLoop true msgs model rest retry).2) := by
  rw [runLoop_noDetect_continues true msgs model a rest retry hr hd he]
  rfl

/-- C1 witness: after one direct-answer pass, its single chunk has been
relayed exactly once and the loop is still running with retry counter 0. -/
theorem C1_witness :
    runLoop true [userMsg] "m" [directPass] 0 =
      ([Event.upstream "m" true true [userMsg], Event.yieldB directChunk.bytes],
       LoopResult.envExhausted 0) := by
  rw [C1_amended [userMsg] "m" directPass [] 0 (by decide) (by decide) rfl]
  rfl

/-- C3 counterexample: two undecodable fragments (halves of one JSON object)
are each relayed to the client by themselves, inside the pass, instead of
being buffered for a retried parse: the trace of the pass yields the raw
bytes of both fragments, so the undecodable fragment is surfaced to the
client as part of the recovery, and no accumulated re-parse ever occurs. -/
theorem C3_counterexample :
    (runLoop true [userMsg] "llama3.2:1b" [fragPass] 0).1 =
      [Event.upstream "llama3.2:1b" true true [userMsg],
       Event.yieldB fragA.bytes, Event.yieldB fragB.bytes] ∧
    fragA.parsed = none ∧ fragB.parsed = none := by
  refine ⟨?_, rfl, rfl⟩
  decide

/-- C3 amended: a chunk whose bytes fail to parse as a complete JSON object is
not buffered or retried against accumulated bytes and is never treated as an
error: it is processed exactly like a decoded chunk with no tool-call field —
relayed to the client immediately in streaming mode, or appended to the
accumulated response otherwise — and the following chunk is again parsed on
its own. -/
theorem C3_amended (streaming : Bool) (b : String) (rest : List Chunk) :
    processChunks streaming (⟨b, none⟩ :: rest) =
      processChunks streaming (⟨b, some ⟨none⟩⟩ :: rest) ∧
    processChunks streaming (⟨b, none⟩ :: rest) =
      (if streaming then
        (b :: (processChunks streaming rest).1,
         (processChunks streaming rest).2.1, (processChunks streaming rest).2.2)
       else
        ((processChunks streaming rest).1,
         b ++ (processChunks streaming rest).2.1, (processChunks streaming rest).2.2)) := by
  constructor
  · rfl
  · cases streaming <;> rfl

theorem generateResponse_success (req : ChatRequest) (ms : List Msg) (bypassEnv : PassEnv)
    (attempts : List AttemptEnv) (pass2 : PassEnv) (res : String) (st : Bool)
    (evs : List Event)
    (hs : req.stream.getD true = st)
    (hm : req.messages = some ms)
    (hf : functionCallFlag req.metadataTask = true)
    (hl : runLoop st (injectSystem ms) (loopModel req) attempts 0 = (evs, LoopResult.success res)) :
    generateResponse req bypassEnv attempts pass2 =
      evs ++ Event.upstream (loopModel req) false st (injectSystem ms ++ [⟨"tool", res⟩]) ::
        relayPass2 st pass2 := by
  simp only [generateResponse, hf, if_true, processedMessages, hm, hs, hl]

theorem generateResponse_errored (req : ChatRequest) (ms : List Msg) (bypassEnv : PassEnv)
    (attempts : List AttemptEnv) (pass2 : PassEnv) (st : Bool) (evs : List Event)
    (hs : req.stream.getD true = st)
    (hm : req.messages = some ms)
    (hf : functionCallFlag req.metadataTask = true)
    (hl : runLoop st (injectSystem ms) (loopModel req) attempts 0 = (evs, LoopResult.errored)) :
    generateResponse req bypassEnv attempts pass2 = evs := by
  simp only [generateResponse, hf, if_true, processedMessages, hm, hs, hl]

theorem invokeCount_yieldB_map (l : List String) :
    invokeCount (l.map Event.yieldB) = 0 := by
  induction l with
  | nil => rfl
  | cons a t ih => exact ih

/-- C4 counterexample: when `use_tools` raises on the attempt that first
detects the tool call, the attempt counts as a failure and is retried, and
the capability is invoked again on the next detecting attempt — two
invocations for one request in which a tool-call directive was detected on
attempt 1 ≤ 10, where the claim requires exactly one. -/
theorem C4_counterexample :
    invokeCount (generateResponse reqStream emptyPass [detectFailPass, detectOkPass] emptyPass) =
      2 := by
  decide

/-- C4 amended: on the first attempt that detects a nonempty tool-call list
and whose invocation succeeds (after any number of earlier non-detecting
attempts within the retry budget), the capability is invoked exactly once in
the whole request, a `tool`-role message carrying the serialized result is
appended to the conversation, and the second upstream call — issued after the
invocation — carries the updated conversation and no tools list. When the
invocation raises instead, that attempt counts as a failure and the
capability may be invoked again on a later attempt (invocation is once per
detecting attempt, not once per request). -/
theorem C4_amended (req : ChatRequest) (ms : List Msg) (bypassEnv : PassEnv)
    (pre : List AttemptEnv) (env : AttemptEnv) (rest : List AttemptEnv) (pass2 : PassEnv)
    (rels : List String) (acc : String) (tcs : List ToolCall) (res : String) (st : Bool)
    (hs : req.stream.getD true = st)
    (hm : req.messages = some ms)
    (hf : functionCallFlag req.metadataTask = true)
    (hd : ∀ a ∈ pre, ∀ c ∈ a.chunks, chunkDetects c = false)
    (hb : failCount pre ≤ 9)
    (hp : processChunks st env.chunks = (rels, acc, some tcs))
    (hne : tcs ≠ [])
    (hok : env.invokeResult = Except.ok res) :
    generateResponse req bypassEnv (pre ++ env :: rest) pass2 =
      contEvents st (injectSystem ms) (loopModel req) pre ++
        (Event.upstream (loopModel req) true st (injectSystem ms) ::
          (rels.map Event.yieldB ++ (if st then [] else [Event.yieldB acc]) ++
            [Event.invoke tcs.head?])) ++
        (Event.upstream (loopModel req) false st (injectSystem ms ++ [⟨"tool", res⟩]) ::
          relayPass2 st pass2) ∧
    invokeCount (generateResponse req bypassEnv (pre ++ env :: rest) pass2) = 1 := by
  have hmax : maxRetries = 10 := rfl
  have hloop : runLoop st (injectSystem ms) (loopModel req) (pre ++ env :: rest) 0 =
      (contEvents st (injectSystem ms) (loopModel req) pre ++
        (Event.upstream (loopModel req) true st (injectSystem ms) ::
          (rels.map Event.yieldB ++ (if st then [] else [Event.yieldB acc]) ++
            [Event.invoke tcs.head?])),
       LoopResult.success res) := by
    rw [runLoop_contSegment st (injectSystem ms) (loopModel req) pre (env :: rest) 0 hd
      (by omega)]
    rw [runLoop_detect_ok_step st (injectSystem ms) (loopModel req) env rest (0 + failCount pre)
      rels acc tcs res (by omega) hp hne hok]
  have hmain := generateResponse_success req ms bypassEnv (pre ++ env :: rest) pass2 res st _
    hs hm hf hloop
  refine ⟨by rw [hmain, List.append_assoc], ?_⟩
  rw [hmain]
  rw [invokeCount_append, invokeCount_append, invokeCount_contEvents]
  have h1 : invokeCount
      (Event.upstream (loopModel req) true st (injectSystem ms) ::
        (rels.map Event.yieldB ++ (if st then [] else [Event.yieldB acc]) ++
          [Event.invoke tcs.head?])) = 1 := by
    have h2 : invokeCount
        (Event.upstream (loopModel req) true st (injectSystem ms) ::
          (rels.map Event.yieldB ++ (if st then [] else [Event.yieldB acc]) ++
            [Event.invoke tcs.head?])) =
        invokeCount (rels.map Event.yieldB ++ (if st then [] else [Event.yieldB acc]) ++
          [Event.invoke tcs.head?]) := rfl
    rw [h2, invokeCount_append, invokeCount_append, invokeCount_yieldB_map]
    cases st <;> rfl
  have h3 : invokeCount
      (Event.upstream (loopModel req) false st (injectSystem ms ++ [⟨"tool", res⟩]) ::
        relayPass2 st pass2) = 0 := by
    have h4 : invokeCount
        (Event.upstream (loopModel req) false st (injectSystem ms ++ [⟨"tool", res⟩]) ::
          relayPass2 st pass2) = invokeCount (relayPass2 st pass2) := rfl
    rw [h4, invokeCount_relayPass2]
  rw [h1, h3]

/-- C4 witness: a single attempt detecting the tool call whose invocation
succeeds gives exactly one invocation, followed by the second upstream call
carrying the conversation extended by the `tool` message and no tools list. -/
theorem C4_witness :
    generateResponse reqStream emptyPass [detectOkPass] emptyPass =
      [Event.upstream "llama3.2:1b" true true (injectSystem [userMsg]),
       Event.invoke (some tcLakers),
       Event.upstream "llama3.2:1b" false true
         (injectSystem [userMsg] ++ [⟨"tool", "tool result"⟩])] ∧
    invokeCount (generateResponse reqStream emptyPass [detectOkPass] emptyPass) = 1 := by
  have h := C4_amended reqStream [userMsg] emptyPass [] detectOkPass [] emptyPass
    [] "" [tcLakers] "tool result" true rfl rfl rfl (by simp) (by decide) rfl (by decide) rfl
  simp only [List.nil_append] at h
  constructor
  · rw [h.1]
    rfl
  · exact h.2

/-- C5 counterexample: when each of the ten tool-seeking attempts relays one
ordinary chunk and then raises mid-stream, the client receives the ten
already-relayed chunks from the failed passes in addition to the single error
object — the claim's "no other bytes originating from the failed passes"
fails for mid-stream failures in streaming mode, because relayed bytes are
never retracted. -/
theorem C5_counterexample :
    yieldsOf (generateResponse reqStream emptyPass (List.replicate 10 relayFailPass) emptyPass) =
      List.replicate 10 directChunk.bytes ++ [toolErrorJson "connection reset"] ∧
    (yieldsOf (generateResponse reqStream emptyPass
      (List.replicate 10 relayFailPass) emptyPass)).length = 11 := by
  constructor <;> decide

/-- C5 amended: when every one of the ten tool-seeking attempts raises, the
client receives exactly one well-formed `{error: ...}` JSON object, as the
final bytes of the response, and nothing after it; the generator returns
without a second upstream call. Bytes already relayed before each failure are
not retracted, so in streaming mode the error object is preceded by exactly
the chunks the failed passes had already delivered — and when no chunks were
delivered before the failures (or in non-streaming mode, where the
accumulated response of a raising pass is never yielded), the error object is
the only bytes the client receives. -/
theorem C5_amended (req : ChatRequest) (ms : List Msg) (bypassEnv : PassEnv)
    (es rest : List AttemptEnv) (pass2 : PassEnv) (e : String) (st : Bool)
    (hs : req.stream.getD true = st)
    (hm : req.messages = some ms)
    (hf : functionCallFlag req.metadataTask = true)
    (hlen : es.length = maxRetries)
    (hfail : ∀ a ∈ es, (∀ c ∈ a.chunks, chunkDetects c = false) ∧ a.raises.isSome)
    (hlast : lastRaise es = some e) :
    generateResponse req bypassEnv (es ++ rest) pass2 =
      contEvents st (injectSystem ms) (loopModel req) es ++ [Event.yieldB (toolErrorJson e)] ∧
    yieldsOf (generateResponse req bypassEnv (es ++ rest) pass2) =
      (if st then allChunkBytes es else []) ++ [toolErrorJson e] := by
  have hne : es ≠ [] := by
    intro h0
    rw [h0] at hlen
    exact absurd hlen (by decide)
  have hloop : runLoop st (injectSystem ms) (loopModel req) (es ++ rest) 0 =
      (contEvents st (injectSystem ms) (loopModel req) es ++ [Event.yieldB (toolErrorJson e)],
       LoopResult.errored) :=
    runLoop_allFail st (injectSystem ms) (loopModel req) es rest 0 e hfail
      (by rw [Nat.zero_add]; exact hlen) hne hlast
  have hmain := generateResponse_errored req ms bypassEnv (es ++ rest) pass2 st _ hs hm hf hloop
  refine ⟨hmain, ?_⟩
  rw [hmain, yieldsOf_append,
    yieldsOf_contEvents_allFail st (injectSystem ms) (loopModel req) es
      (fun a ha => (hfail a ha).2)]
  rfl

/-- C5 witness: ten connection-time failures (no chunk ever delivered) on a
non-streaming request leave the error object as the only bytes received. -/
theorem C5_witness :
    yieldsOf (generateResponse reqNoStream emptyPass (List.replicate 10 connFailPass) emptyPass) =
      [toolErrorJson "conn"] := by
  have h := (C5_amended reqNoStream [userMsg] emptyPass (List.replicate 10 connFailPass) []
    emptyPass "conn" false rfl rfl rfl rfl (by decide) rfl).2
  simpa using h

/-- C6 counterexample: a non-streaming tool-calling request whose first pass
accumulates one complete JSON object before the tool-call chunk produces a
body holding two top-level JSON objects — the accumulated bytes of the first
pass followed by the second pass's accumulated bytes — while the claim says
the body is a single JSON object (the content-type itself is
`application/json` as claimed). -/
theorem C6_counterexample :
    chatMediaType false = "application/json" ∧
    bodyOf (generateResponse reqNoStream emptyPass [c6Pass1] c6Pass2) =
      "\x7b\"a\": 1\x7d\x7b\"b\": 2\x7d" ∧
    topLevelObjects (bodyOf (generateResponse reqNoStream emptyPass [c6Pass1] c6Pass2)) = 2 := by
  refine ⟨rfl, ?_, ?_⟩ <;> decide

/-- C6 amended: the content-type is `application/x-ndjson` when `stream=true`
and `application/json` when `stream=false`, and with `stream=true` the body is
the relayed chunk stream; but with `stream=false`, on the successful
tool-calling path the body is the concatenation of the first pass's
accumulated bytes (the bytes before the tool-call chunk) and the second
pass's accumulated bytes, which is a single JSON object only when the first
pass accumulated nothing. -/
theorem C6_amended (req : ChatRequest) (ms : List Msg) (bypassEnv : PassEnv)
    (env : AttemptEnv) (rest : List AttemptEnv) (pass2 : PassEnv)
    (rels : List String) (acc : String) (tcs : List ToolCall) (res : String)
    (hs : req.stream = some false)
    (hm : req.messages = some ms)
    (hf : functionCallFlag req.metadataTask = true)
    (hp : processChunks false env.chunks = (rels, acc, some tcs))
    (hne : tcs ≠ [])
    (hok : env.invokeResult = Except.ok res)
    (h2 : pass2.raises = none) :
    chatMediaType false = "application/json" ∧
    chatMediaType true = "application/x-ndjson" ∧
    yieldsOf (generateResponse req bypassEnv (env :: rest) pass2) =
      [acc, concatBytes pass2.chunks] ∧
    bodyOf (generateResponse req bypassEnv (env :: rest) pass2) =
      acc ++ concatBytes pass2.chunks := by
  have hs' : req.stream.getD true = false := by rw [hs]; rfl
  have hrels : rels = [] := by
    have h0 := processChunks_false_relays env.chunks
    rw [hp] at h0
    exact h0
  have hmain := C4_amended req ms bypassEnv [] env rest pass2 rels acc tcs res false
    hs' hm hf (by simp) (by decide) hp hne hok
  have htr := hmain.1
  simp only [List.nil_append] at htr
  have hy : yieldsOf (generateResponse req bypassEnv (env :: rest) pass2) =
      [acc, concatBytes pass2.chunks] := by
    rw [htr, hrels]
    have hrp : relayPass2 false pass2 = [Event.yieldB (concatBytes pass2.chunks)] := by
      simp [relayPass2, h2]
    rw [hrp]
    rfl
  refine ⟨rfl, rfl, hy, ?_⟩
  rw [bodyOf, hy]
  simp [concatStrings]

/-- C6 witness: with `stream=false`, a first pass that detects the tool call
immediately (empty accumulation) and a second pass returning one JSON object
yield a body equal to that single object, delivered as `application/json`. -/
theorem C6_witness :
    chatMediaType false = "application/json" ∧
    bodyOf (generateResponse reqNoStream emptyPass [detectOkPass] c6Pass2) =
      "" ++ concatBytes c6Pass2.chunks := by
  refine ⟨rfl, ?_⟩
  exact (C6_amended reqNoStream [userMsg] emptyPass detectOkPass [] c6Pass2
    [] "" [tcLakers] "tool result" rfl rfl rfl rfl (by decide) rfl rfl).2.2.2

end SportsLLM
